import Mathlib

/-!
# catsight: `WindowsProcessHandle`

A shallow embedding of `src/System/Windows/WindowsProcessHandle.cpp` and the
properties of its memory accessors, symbol resolver and region enumerator.

Conventions of the embedding

* Addresses (`uintptr_t`, `size_t`) are natural numbers; every addition the
  source performs in pointer arithmetic is reduced modulo `2 ^ w`, where `w`
  is the pointer width in bits of the build (32 or 64).
* Byte strings (`s2::string`, `char[]` fields, raw memory) are lists of
  natural numbers, one per byte.
* The operating system is a record of answer functions (`OS`); the target is
  taken to be quiescent during one call, so an answer depends only on the
  arguments of the query.
* `while (true)` of the page scan is run with a fuel argument counting the
  `VirtualQueryEx` calls; `none` means the fuel ran out before the loop
  reached its `break`.
-/

namespace Catsight

set_option maxRecDepth 100000

/-! ## Constants of the Windows SDK used by the source -/

def PAGE_NOACCESS : Nat := 0x01
def PAGE_READONLY : Nat := 0x02
def PAGE_READWRITE : Nat := 0x04
def PAGE_WRITECOPY : Nat := 0x08
def PAGE_EXECUTE : Nat := 0x10
def PAGE_EXECUTE_READ : Nat := 0x20
def PAGE_EXECUTE_READWRITE : Nat := 0x40
def PAGE_EXECUTE_WRITECOPY : Nat := 0x80
def PAGE_GUARD : Nat := 0x100

def MEM_COMMIT : Nat := 0x1000
def MEM_RESERVE : Nat := 0x2000
def MEM_FREE : Nat := 0x10000
def MEM_PRIVATE : Nat := 0x20000
def MEM_MAPPED : Nat := 0x40000
def MEM_IMAGE : Nat := 0x1000000

/-- The size of `IMAGE_DOS_HEADER` in bytes. -/
def sizeofDosHeader : Nat := 64

/-- The size of `IMAGE_NT_HEADERS` in bytes: 248 in a 32-bit build, 264 in a 64-bit one. -/
def sizeofNtHeaders (w : Nat) : Nat := if w = 32 then 248 else 264

/-- The size of `IMAGE_SECTION_HEADER` in bytes. -/
def sizeofSectionHeader : Nat := 40

/-- The value of `FIELD_OFFSET(IMAGE_NT_HEADERS, OptionalHeader)`: signature (4) and file header (20). -/
def offsetOptionalHeader : Nat := 24

/-! ## Flags of a region -/

/-- Modelled from the spec: the enumeration `pmrf_*` is declared in a header that is not
among the sources; the spec describes its members as orthogonal bits, so each is given a
bit of its own here. Only the fact that the six are distinct single bits is used. -/
def pmrf_Read : Nat := 1

/-- Modelled from the spec: see `pmrf_Read`. -/
def pmrf_Write : Nat := 2

/-- Modelled from the spec: see `pmrf_Read`. -/
def pmrf_Execute : Nat := 4

/-- Modelled from the spec: see `pmrf_Read`. -/
def pmrf_Image : Nat := 8

/-- Modelled from the spec: see `pmrf_Read`. -/
def pmrf_Mapped : Nat := 16

/-- Modelled from the spec: see `pmrf_Read`. -/
def pmrf_Private : Nat := 32

/-- The test `(flags & bit) != 0`. -/
def hasFlag (flags bit : Nat) : Bool := flags &&& bit != 0

/-! ## Data -/

/-- The fields of `MODULEENTRY32` that the source reads. -/
structure MODULEENTRY32 where
  modBaseAddr : Nat
  modBaseSize : Nat
  szExePath : List Nat
deriving DecidableEq, Repr

/-- The fields of `MEMORY_BASIC_INFORMATION` that the source reads (`Type_` is the field `Type`). -/
structure MEMORY_BASIC_INFORMATION where
  BaseAddress : Nat
  RegionSize : Nat
  State : Nat
  Protect : Nat
  Type_ : Nat
deriving DecidableEq, Repr

/-- The answers of the operating system. The first argument of each service is the process
handle it is called with (`0` is `nullptr`).

* `ReadProcessMemory hProcess p size`: the bytes copied, or `none` when the call fails;
* `VirtualQueryEx hProcess p`: the region information, or `none` when the call returns 0;
* `SymFromAddr hProcess p`: the name of the symbol, or `none` when the call fails;
* `SymFromName hProcess name`: the address of the symbol, or `none` when the call fails;
* `GetProcessId hProcess`: the process identifier;
* `Module32 pid`: the entries that `Module32First` and `Module32Next` deliver for a module
  snapshot of `pid`, in order (empty when `Module32First` fails). -/
structure OS where
  ReadProcessMemory : Nat → Nat → Nat → Option (List Nat)
  VirtualQueryEx : Nat → Nat → Option MEMORY_BASIC_INFORMATION
  SymFromAddr : Nat → Nat → Option (List Nat)
  SymFromName : Nat → List Nat → Option Nat
  GetProcessId : Nat → Nat
  Module32 : Nat → List MODULEENTRY32

/-- The members of `WindowsProcessHandle`: the process handle (`0` is `nullptr`) and whether
the symbol engine was initialised. -/
structure WindowsProcessHandle where
  m_proc : Nat
  m_symbols : Bool
deriving DecidableEq, Repr

/-- The local struct `SectionInfo` of `GetMemoryRegions`. -/
structure SectionInfo where
  m_base : Nat
  m_name : List Nat
deriving DecidableEq, Repr

/-- The local struct `ModuleInfo` of `GetMemoryRegions`. -/
structure ModuleInfo where
  m_base : Nat
  m_entryPoint : Nat := 0
  m_mod : MODULEENTRY32
  m_sections : List SectionInfo := []
deriving DecidableEq, Repr

/-- Modelled from the spec: `ProcessMemoryRegion` is declared in a header that is not among
the sources. Its members are the ones `GetMemoryRegions` assigns; a fresh element of the
result list has no flags, entry point 0 and empty path and section name. -/
structure ProcessMemoryRegion where
  m_start : Nat := 0
  m_end : Nat := 0
  m_flags : Nat := 0
  m_entryPoint : Nat := 0
  m_path : List Nat := []
  m_section : List Nat := []
deriving DecidableEq, Repr

/-- What a call does: it returns a value, or the process is aborted by a failed `assert`. -/
inductive Outcome (α : Type) where
  | abort : Outcome α
  | ret : α → Outcome α
deriving DecidableEq, Repr

/-! ## Handle and memory accessors -/

/-- `WindowsProcessHandle::IsOpen`. -/
def IsOpen (h : WindowsProcessHandle) : Bool := h.m_proc != 0

/-- `WindowsProcessHandle::ReadMemory`. The result is the returned byte count together with
the bytes written to the caller's buffer (none when nothing was copied). `ndebug` tells
whether `assert` is compiled out. -/
def ReadMemory (ndebug : Bool) (os : OS) (h : WindowsProcessHandle) (p size : Nat) :
    Outcome (Nat × List Nat) :=
  if !ndebug && h.m_proc == 0 then .abort
  else if h.m_proc = 0 then .ret (0, [])
  else
    match os.ReadProcessMemory h.m_proc p size with
    | none => .ret (0, [])
    | some bytes => .ret (bytes.length, bytes)

/-- `WindowsProcessHandle::IsReadableMemory`. -/
def IsReadableMemory (ndebug : Bool) (os : OS) (h : WindowsProcessHandle) (p : Nat) :
    Outcome Bool :=
  if !ndebug && h.m_proc == 0 then .abort
  else if h.m_proc = 0 then .ret false
  else
    match ReadMemory ndebug os h p 1 with
    | .abort => .abort
    | .ret (n, _) => .ret (n == 1)

/-- `WindowsProcessHandle::IsExecutableMemory`. -/
def IsExecutableMemory (ndebug : Bool) (os : OS) (h : WindowsProcessHandle) (p : Nat) :
    Outcome Bool :=
  if !ndebug && h.m_proc == 0 then .abort
  else if h.m_proc = 0 then .ret false
  else
    match os.VirtualQueryEx h.m_proc p with
    | none => .ret false
    | some mbi =>
      .ret (mbi.Protect == PAGE_EXECUTE_READ || mbi.Protect == PAGE_EXECUTE_READWRITE
        || mbi.Protect == PAGE_EXECUTE_WRITECOPY)

/-- `WindowsProcessHandle::GetSymbolName`: the returned flag and the value of the reference
argument `name` after the call. -/
def GetSymbolName (os : OS) (h : WindowsProcessHandle) (p : Nat) (name : List Nat) :
    Bool × List Nat :=
  match os.SymFromAddr h.m_proc p with
  | none => (false, name)
  | some symbolName => (true, symbolName)

/-- `WindowsProcessHandle::GetSymbolAddress`: the returned flag and the value of the
reference argument `p` after the call. -/
def GetSymbolAddress (os : OS) (h : WindowsProcessHandle) (name : List Nat) (p : Nat) :
    Bool × Nat :=
  match os.SymFromName h.m_proc name with
  | none => (false, p)
  | some address => (true, address)

/-- Modelled from the spec: the template `Read<T>` is declared in a header that is not among
the sources. It reads exactly `sizeof(T)` bytes through `ReadMemory` and yields the zeroed
value when the read is short. The result is the object representation of the `T`. It is
used by `GetMemoryRegions`, which is modelled for the runs in which the assertion of
`ReadMemory` holds or is compiled out. -/
def Read (os : OS) (h : WindowsProcessHandle) (p size : Nat) : List Nat :=
  match ReadMemory true os h p size with
  | .ret (n, bytes) => if n = size then bytes else List.replicate size 0
  | .abort => List.replicate size 0

/-! ## Image headers -/

/-- Pointer arithmetic: the value of a sum in `uintptr_t`. -/
def wrap (w x : Nat) : Nat := x % 2 ^ w

/-- The byte at offset `i` of an object representation. -/
def byteAt (bytes : List Nat) (i : Nat) : Nat := bytes.getD i 0

/-- A little-endian `WORD` at offset `off`. -/
def le16 (bytes : List Nat) (off : Nat) : Nat := byteAt bytes off + 256 * byteAt bytes (off + 1)

/-- A little-endian `DWORD` at offset `off`. -/
def le32 (bytes : List Nat) (off : Nat) : Nat := le16 bytes off + 65536 * le16 bytes (off + 2)

/-- The conversion of a `LONG`, given by its 32-bit pattern, to `uintptr_t` (sign extension). -/
def longToPtr (w raw : Nat) : Nat := if raw < 2 ^ 31 then raw else raw + (2 ^ w - 2 ^ 32)

/-- The construction of an `s2::string` from a `const char*`: the bytes before the first
null byte. -/
def cString (bytes : List Nat) : List Nat := bytes.takeWhile (fun b => b != 0)

/-- `IMAGE_DOS_HEADER::e_magic`. -/
def e_magic (headerDOS : List Nat) : Nat := le16 headerDOS 0

/-- `IMAGE_DOS_HEADER::e_lfanew`, as a 32-bit pattern. -/
def e_lfanew (headerDOS : List Nat) : Nat := le32 headerDOS 60

/-- `IMAGE_NT_HEADERS::Signature`. -/
def Signature (headerNT : List Nat) : Nat := le32 headerNT 0

/-- `IMAGE_NT_HEADERS::FileHeader.NumberOfSections`. -/
def NumberOfSections (headerNT : List Nat) : Nat := le16 headerNT 6

/-- `IMAGE_NT_HEADERS::FileHeader.SizeOfOptionalHeader`. -/
def SizeOfOptionalHeader (headerNT : List Nat) : Nat := le16 headerNT 20

/-- `IMAGE_NT_HEADERS::OptionalHeader.AddressOfEntryPoint`. -/
def AddressOfEntryPoint (headerNT : List Nat) : Nat := le32 headerNT 40

/-- `IMAGE_SECTION_HEADER::VirtualAddress`. -/
def VirtualAddress (headerSection : List Nat) : Nat := le32 headerSection 12

/-- The 8-byte field `IMAGE_SECTION_HEADER::Name`. -/
def nameField (headerSection : List Nat) : List Nat := headerSection.take 8

/-- The body of the section loop of `GetMemoryRegions` for index `i`. The name is built from
the pointer to the field `Name`, which is the start of the header: the string runs to the
first null byte of the header, wherever it is (a header of 40 non-null bytes is outside the
model: the source then reads past the object). -/
def readSection (w : Nat) (os : OS) (h : WindowsProcessHandle) (m_base sectionArrayAddress i : Nat) :
    SectionInfo :=
  let headerSection := Read os h (wrap w (sectionArrayAddress + i * sizeofSectionHeader))
    sizeofSectionHeader
  { m_base := wrap w (m_base + VirtualAddress headerSection)
    m_name := cString headerSection }

/-- The body of the module loop of `GetMemoryRegions`: the `ModuleInfo` added for one entry
of the snapshot. -/
def parseModule (w : Nat) (os : OS) (h : WindowsProcessHandle) (mod : MODULEENTRY32) : ModuleInfo :=
  let newModule : ModuleInfo := { m_base := mod.modBaseAddr, m_mod := mod }
  let headerDOS := Read os h newModule.m_base sizeofDosHeader
  if e_magic headerDOS ≠ 0x5A4D then newModule
  else
    let headerNT := Read os h (wrap w (newModule.m_base + longToPtr w (e_lfanew headerDOS)))
      (sizeofNtHeaders w)
    if Signature headerNT ≠ 0x4550 then newModule
    else
      let entryPoint :=
        if AddressOfEntryPoint headerNT ≠ 0 then
          wrap w (newModule.m_base + AddressOfEntryPoint headerNT)
        else newModule.m_entryPoint
      let sectionArrayAddress :=
        wrap w (newModule.m_base + longToPtr w (e_lfanew headerDOS) + offsetOptionalHeader
          + SizeOfOptionalHeader headerNT)
      { newModule with
        m_entryPoint := entryPoint
        m_sections := (List.range (NumberOfSections headerNT)).map
          (readSection w os h newModule.m_base sectionArrayAddress) }

/-- The first phase of `GetMemoryRegions`: the list `modules`. -/
def discoverModules (w : Nat) (os : OS) (h : WindowsProcessHandle) : List ModuleInfo :=
  (os.Module32 (os.GetProcessId h.m_proc)).map (parseModule w os h)

/-! ## Page scan -/

/-- The inner loop over the sections of the owning module: `pageSection` after the loop,
started from `pageSection`. There is no `break`: the last section with the base wins. -/
def findSection (base : Nat) : List SectionInfo → Option SectionInfo → Option SectionInfo
  | [], pageSection => pageSection
  | section_ :: rest, pageSection =>
    if base = section_.m_base then findSection base rest (some section_)
    else findSection base rest pageSection

/-- The range test of the module loop. -/
def inModule (w : Nat) (mod : ModuleInfo) (base : Nat) : Bool :=
  decide (base ≥ mod.m_base) && decide (base < wrap w (mod.m_base + mod.m_mod.modBaseSize))

/-- The loop over `modules` of the page scan: `pageModule` and `pageSection` after it. -/
def findOwner (w : Nat) (base : Nat) : List ModuleInfo → Option ModuleInfo × Option SectionInfo
  | [] => (none, none)
  | mod :: rest =>
    if inModule w mod base then (some mod, findSection base mod.m_sections none)
    else findOwner w base rest

/-- The flags assigned from `mbi.Protect`; a fresh region has no flags. -/
def protectFlags (protect : Nat) : Nat :=
  if protect = PAGE_READONLY then pmrf_Read
  else if protect = PAGE_READWRITE ∨ protect = PAGE_WRITECOPY then pmrf_Read ||| pmrf_Write
  else if protect = PAGE_EXECUTE_READ then pmrf_Read ||| pmrf_Execute
  else if protect = PAGE_EXECUTE_READWRITE ∨ protect = PAGE_EXECUTE_WRITECOPY then
    pmrf_Read ||| pmrf_Write ||| pmrf_Execute
  else 0

/-- The `switch (mbi.Type)`. -/
def typeFlags (flags type : Nat) : Nat :=
  if type = MEM_IMAGE then flags ||| pmrf_Image
  else if type = MEM_MAPPED then flags ||| pmrf_Mapped
  else if type = MEM_PRIVATE then flags ||| pmrf_Private
  else flags

/-- The region added for a region information that is not free. -/
def buildRegion (w : Nat) (modules : List ModuleInfo) (mbi : MEMORY_BASIC_INFORMATION) :
    ProcessMemoryRegion :=
  let owner := findOwner w mbi.BaseAddress modules
  let region : ProcessMemoryRegion :=
    { m_start := mbi.BaseAddress, m_end := wrap w (mbi.BaseAddress + mbi.RegionSize) }
  let region :=
    match owner.1 with
    | some pageModule =>
      { region with m_entryPoint := pageModule.m_entryPoint, m_path := pageModule.m_mod.szExePath }
    | none => region
  let region :=
    match owner.2 with
    | some pageSection => { region with m_section := pageSection.m_name }
    | none => region
  { region with m_flags := typeFlags (protectFlags mbi.Protect) mbi.Type_ }

/-- The loop `while (true)` of the page scan, from the cursor `pageStart` and the list `ret`
built so far; `fuel` bounds the number of `VirtualQueryEx` calls. -/
def scanLoop (w : Nat) (os : OS) (h : WindowsProcessHandle) (modules : List ModuleInfo) :
    Nat → Nat → List ProcessMemoryRegion → Option (List ProcessMemoryRegion)
  | 0, _, _ => none
  | fuel + 1, pageStart, ret =>
    match os.VirtualQueryEx h.m_proc pageStart with
    | none => some ret
    | some mbi =>
      let pageStart := wrap w (pageStart + mbi.RegionSize)
      if mbi.State = MEM_FREE then scanLoop w os h modules fuel pageStart ret
      else scanLoop w os h modules fuel pageStart (ret ++ [buildRegion w modules mbi])

/-- `WindowsProcessHandle::GetMemoryRegions`. -/
def GetMemoryRegions (w : Nat) (os : OS) (h : WindowsProcessHandle) (fuel : Nat) :
    Option (List ProcessMemoryRegion) :=
  scanLoop w os h (discoverModules w os h) fuel 0 []

/-! ## Specification vocabulary for the page scan -/

/-- The page scan makes the successful queries `answers`, in this order, from the cursor
`pageStart`: each query is made at the current cursor, and the cursor then advances by the
reported region size. -/
def queriesFrom (w : Nat) (os : OS) (h : WindowsProcessHandle) :
    Nat → List MEMORY_BASIC_INFORMATION → Prop
  | _, [] => True
  | pageStart, mbi :: rest =>
    os.VirtualQueryEx h.m_proc pageStart = some mbi ∧
      queriesFrom w os h (wrap w (pageStart + mbi.RegionSize)) rest

/-- The cursor after the successful queries `answers`, from the cursor `pageStart`. -/
def cursorAfter (w : Nat) (pageStart : Nat) (answers : List MEMORY_BASIC_INFORMATION) : Nat :=
  answers.foldl (fun cursor mbi => wrap w (cursor + mbi.RegionSize)) pageStart

/-- The values of the cursor during the queries `answers` from the cursor `pageStart`: the
cursors of the successful queries, then the cursor after them. -/
def cursorsOf (w : Nat) : Nat → List MEMORY_BASIC_INFORMATION → List Nat
  | pageStart, [] => [pageStart]
  | pageStart, mbi :: rest => pageStart :: cursorsOf w (wrap w (pageStart + mbi.RegionSize)) rest

/-- The address `a` lies in the range `[base, base + size)` of the module, the end of the
range being computed in pointer arithmetic as the source does. -/
def inRange (w : Nat) (mod : ModuleInfo) (a : Nat) : Prop :=
  mod.m_base ≤ a ∧ a < wrap w (mod.m_base + mod.m_mod.modBaseSize)

/-- The DOS header that `GetMemoryRegions` reads for a module at `base`. -/
def dosHeaderOf (os : OS) (h : WindowsProcessHandle) (base : Nat) : List Nat :=
  Read os h base sizeofDosHeader

/-- The NT headers that `GetMemoryRegions` reads for a module at `base`, at `base + e_lfanew`. -/
def ntHeadersOf (w : Nat) (os : OS) (h : WindowsProcessHandle) (base : Nat) : List Nat :=
  Read os h (wrap w (base + longToPtr w (e_lfanew (dosHeaderOf os h base)))) (sizeofNtHeaders w)

/-- The record of a module without image annotations: its base and descriptor, entry point 0
and no sections. -/
def unparsedModule (mod : MODULEENTRY32) : ModuleInfo :=
  { m_base := mod.modBaseAddr, m_entryPoint := 0, m_mod := mod, m_sections := [] }

/-- The section name as the spec words it: the bytes of the 8-byte name field up to the
first null byte or up to the width of the field, whichever is shorter. -/
def sectionNameSpec (headerSection : List Nat) : List Nat := cString (nameField headerSection)

/-- The state of a region information is not free. -/
def notFree (mbi : MEMORY_BASIC_INFORMATION) : Bool := mbi.State != MEM_FREE

/-- The number of backing-type flags (Image, Mapped, Private) set in `flags`. -/
def backingCount (flags : Nat) : Nat :=
  (if hasFlag flags pmrf_Image then 1 else 0) + (if hasFlag flags pmrf_Mapped then 1 else 0)
    + (if hasFlag flags pmrf_Private then 1 else 0)

/-- The six protection codes that `GetMemoryRegions` recognises. -/
def recognizedProtect (protect : Nat) : Prop :=
  protect = PAGE_READONLY ∨ protect = PAGE_READWRITE ∨ protect = PAGE_WRITECOPY ∨
    protect = PAGE_EXECUTE_READ ∨ protect = PAGE_EXECUTE_READWRITE ∨
    protect = PAGE_EXECUTE_WRITECOPY

/-! ## Concrete targets -/

/-- An open handle. -/
def openHandle : WindowsProcessHandle := { m_proc := 7, m_symbols := true }

/-- A handle whose process connection failed to open. -/
def inertHandle : WindowsProcessHandle := { m_proc := 0, m_symbols := false }

/-- The path `a.exe`. -/
def demoPath : List Nat := [0x61, 0x2E, 0x65, 0x78, 0x65]

/-- The base address of the module of the demo targets. -/
def demoBase : Nat := 0x400000

/-- The headers of an image: a DOS header with the magic `magic` and `e_lfanew = 0x80`, and at
offset `0x80` the NT headers of a 64-bit image with the signature `signature`, two sections,
an optional header of 240 bytes and the entry-point offset `entry` (below 65536), followed at
offset `0x188` by the section headers `.text` (virtual size and address `0x1000`) and
`.textbss` (virtual size `0x41`, virtual address `0x2000`). -/
def demoImage (magic signature entry : Nat) : List Nat :=
  [magic % 256, magic / 256] ++ List.replicate 58 0 ++ [0x80, 0, 0, 0]
    ++ List.replicate 64 0
    ++ [signature % 256, signature / 256, 0, 0]
    ++ [0x64, 0x86, 2, 0] ++ List.replicate 12 0 ++ [0xF0, 0, 0x22, 0]
    ++ [0x0B, 0x02, 0, 0] ++ List.replicate 12 0 ++ [entry % 256, entry / 256, 0, 0]
    ++ List.replicate 220 0
    ++ [0x2E, 0x74, 0x65, 0x78, 0x74, 0, 0, 0] ++ [0, 0x10, 0, 0] ++ [0, 0x10, 0, 0]
    ++ List.replicate 24 0
    ++ [0x2E, 0x74, 0x65, 0x78, 0x74, 0x62, 0x73, 0x73] ++ [0x41, 0, 0, 0] ++ [0, 0x20, 0, 0]
    ++ List.replicate 24 0

/-- A target with one module of size `0x3000` at `demoBase` whose first bytes are `image`. Its
address space is free below the module, holds the three pages of the module (read-only
headers, executable code, writable data), then two reserved private pages, and ends there. -/
def demoOS (image : List Nat) : OS where
  ReadProcessMemory := fun hProcess p size =>
    if hProcess = 7 ∧ demoBase ≤ p ∧ p + size ≤ demoBase + image.length then
      some ((image.drop (p - demoBase)).take size)
    else none
  VirtualQueryEx := fun hProcess p =>
    if hProcess ≠ 7 then none
    else if p < 0x400000 then some ⟨0, 0x400000, MEM_FREE, PAGE_NOACCESS, 0⟩
    else if p < 0x401000 then some ⟨0x400000, 0x1000, MEM_COMMIT, PAGE_READONLY, MEM_IMAGE⟩
    else if p < 0x402000 then some ⟨0x401000, 0x1000, MEM_COMMIT, PAGE_EXECUTE_READ, MEM_IMAGE⟩
    else if p < 0x403000 then some ⟨0x402000, 0x1000, MEM_COMMIT, PAGE_READWRITE, MEM_IMAGE⟩
    else if p < 0x405000 then some ⟨0x403000, 0x2000, MEM_RESERVE, 0, MEM_PRIVATE⟩
    else none
  SymFromAddr := fun _ _ => none
  SymFromName := fun _ _ => none
  GetProcessId := fun hProcess => if hProcess = 7 then 1234 else 0
  Module32 := fun pid => if pid = 1234 then [⟨demoBase, 0x3000, demoPath⟩] else []

/-- The demo target with a well-formed image and the entry-point offset `0x1234`. -/
def goodOS : OS := demoOS (demoImage 0x5A4D 0x4550 0x1234)

/-- A target without modules whose only region is committed, read-write, and reported with
the backing-type code 0. -/
def untypedOS : OS where
  ReadProcessMemory := fun _ _ _ => none
  VirtualQueryEx := fun _ p =>
    if p < 0x1000 then some ⟨0, 0x1000, MEM_COMMIT, PAGE_READWRITE, 0⟩ else none
  SymFromAddr := fun _ _ => none
  SymFromName := fun _ _ => none
  GetProcessId := fun _ => 0
  Module32 := fun _ => []

/-- The demo target with an image whose NT headers do not carry the signature `0x4550`. -/
def badSignatureOS : OS := demoOS (demoImage 0x5A4D 0x4551 0x1234)

/-- A target of three committed private pages of `0x1000` bytes at address 0; a query at an
address in them reports the page that holds the address. -/
def pagedOS : OS where
  ReadProcessMemory := fun _ _ _ => none
  VirtualQueryEx := fun _ p =>
    if p < 0x3000 then some ⟨p - p % 0x1000, 0x1000, MEM_COMMIT, PAGE_READWRITE, MEM_PRIVATE⟩
    else none
  SymFromAddr := fun _ _ => none
  SymFromName := fun _ _ => none
  GetProcessId := fun _ => 0
  Module32 := fun _ => []

/-- An operating system whose symbol engine answers every query, whatever the handle. -/
def eagerOS : OS where
  ReadProcessMemory := fun _ _ size => some (List.replicate size 0x90)
  VirtualQueryEx := fun _ p => some ⟨p, 0x1000, MEM_COMMIT, PAGE_EXECUTE_READ, MEM_IMAGE⟩
  SymFromAddr := fun _ _ => some [0x66]
  SymFromName := fun _ _ => some 0x1000
  GetProcessId := fun _ => 0
  Module32 := fun _ => []

/-- The demo target with the name field of its second section header cleared: the section at
virtual address `0x2000` has the empty name. -/
def blankNameOS : OS :=
  demoOS ((demoImage 0x5A4D 0x4550 0x1234).take 0x1B0 ++ List.replicate 8 0
    ++ (demoImage 0x5A4D 0x4550 0x1234).drop 0x1B8)

/-- The regions of the target `goodOS`. -/
def goodRegions : List ProcessMemoryRegion :=
  [ { m_start := 0x400000, m_end := 0x401000, m_flags := 9, m_entryPoint := 0x401234,
      m_path := demoPath },
    { m_start := 0x401000, m_end := 0x402000, m_flags := 13, m_entryPoint := 0x401234,
      m_path := demoPath, m_section := [0x2E, 0x74, 0x65, 0x78, 0x74] },
    { m_start := 0x402000, m_end := 0x403000, m_flags := 11, m_entryPoint := 0x401234,
      m_path := demoPath, m_section := [0x2E, 0x74, 0x65, 0x78, 0x74, 0x62, 0x73, 0x73, 0x41] },
    { m_start := 0x403000, m_end := 0x405000, m_flags := 32 } ]

/-- The regions of the target `badSignatureOS`: the module is known by its path only. -/
def badSignatureRegions : List ProcessMemoryRegion :=
  [ { m_start := 0x400000, m_end := 0x401000, m_flags := 9, m_path := demoPath },
    { m_start := 0x401000, m_end := 0x402000, m_flags := 13, m_path := demoPath },
    { m_start := 0x402000, m_end := 0x403000, m_flags := 11, m_path := demoPath },
    { m_start := 0x403000, m_end := 0x405000, m_flags := 32 } ]

/-! ## Lemmas on the accessors -/

/-- On an open handle the assertion of `ReadMemory` holds: the call does the same with and
without assertions, so `Read` is the same in both builds. -/
theorem ReadMemory_open (ndebug : Bool) (os : OS) (h : WindowsProcessHandle) (p size : Nat)
    (hopen : IsOpen h = true) :
    ReadMemory ndebug os h p size = ReadMemory true os h p size := by
  have hproc : h.m_proc ≠ 0 := by simpa [IsOpen] using hopen
  simp [ReadMemory, hproc]

/-! ## Lemmas on the page scan -/

theorem queriesFrom_cons (w : Nat) (os : OS) (h : WindowsProcessHandle) (p : Nat)
    (mbi : MEMORY_BASIC_INFORMATION) (rest : List MEMORY_BASIC_INFORMATION) :
    queriesFrom w os h p (mbi :: rest) ↔
      (os.VirtualQueryEx h.m_proc p = some mbi ∧
        queriesFrom w os h (wrap w (p + mbi.RegionSize)) rest) := Iff.rfl

theorem cursorAfter_cons (w p : Nat) (mbi : MEMORY_BASIC_INFORMATION)
    (rest : List MEMORY_BASIC_INFORMATION) :
    cursorAfter w p (mbi :: rest) = cursorAfter w (wrap w (p + mbi.RegionSize)) rest := rfl

/-- The loop returns exactly when finitely many queries succeed and the next one fails, and
it then returns the list built so far followed by one region per answer that is not free. -/
theorem scanLoop_iff (w : Nat) (os : OS) (h : WindowsProcessHandle) (modules : List ModuleInfo)
    (fuel p : Nat) (acc out : List ProcessMemoryRegion) :
    scanLoop w os h modules fuel p acc = some out ↔
      ∃ answers : List MEMORY_BASIC_INFORMATION,
        answers.length < fuel ∧ queriesFrom w os h p answers ∧
        os.VirtualQueryEx h.m_proc (cursorAfter w p answers) = none ∧
        out = acc ++ (answers.filter notFree).map (buildRegion w modules) := by
  induction fuel generalizing p acc with
  | zero => simp [scanLoop]
  | succ fuel ih =>
    rw [scanLoop]
    cases hq : os.VirtualQueryEx h.m_proc p with
    | none =>
      constructor
      · intro hout
        refine ⟨[], by simp, trivial, by simpa [cursorAfter] using hq, ?_⟩
        simp at hout
        simp [hout]
      · rintro ⟨answers, -, hqs, hfail, hout⟩
        cases answers with
        | nil => simp [hout]
        | cons a rest =>
          rw [queriesFrom_cons] at hqs
          rw [hq] at hqs
          exact absurd hqs.1 (by simp)
    | some mbi =>
      simp only []
      by_cases hfree : mbi.State = MEM_FREE
      · have hnf : notFree mbi = false := by simp [notFree, hfree]
        rw [if_pos hfree, ih]
        constructor
        · rintro ⟨answers, hlen, hqs, hfail, hout⟩
          refine ⟨mbi :: answers, by simpa using hlen, ⟨hq, hqs⟩, hfail, ?_⟩
          simp [List.filter_cons, hnf, hout]
        · rintro ⟨answers, hlen, hqs, hfail, hout⟩
          cases answers with
          | nil =>
            simp [cursorAfter] at hfail
            rw [hq] at hfail
            exact absurd hfail (by simp)
          | cons a rest =>
            rw [queriesFrom_cons, hq] at hqs
            obtain ⟨ha, hqs⟩ := hqs
            cases ha
            refine ⟨rest, by simpa using hlen, hqs, hfail, ?_⟩
            simpa [List.filter_cons, hnf] using hout
      · have hnf : notFree mbi = true := by simp [notFree, hfree]
        rw [if_neg hfree, ih]
        constructor
        · rintro ⟨answers, hlen, hqs, hfail, hout⟩
          refine ⟨mbi :: answers, by simpa using hlen, ⟨hq, hqs⟩, hfail, ?_⟩
          simp [List.filter_cons, hnf, hout]
        · rintro ⟨answers, hlen, hqs, hfail, hout⟩
          cases answers with
          | nil =>
            simp [cursorAfter] at hfail
            rw [hq] at hfail
            exact absurd hfail (by simp)
          | cons a rest =>
            rw [queriesFrom_cons, hq] at hqs
            obtain ⟨ha, hqs⟩ := hqs
            cases ha
            refine ⟨rest, by simpa using hlen, hqs, hfail, ?_⟩
            simpa [List.filter_cons, hnf] using hout

/-- Every answer of a run of successful queries is an answer of the operating system. -/
theorem queriesFrom_mem (w : Nat) (os : OS) (h : WindowsProcessHandle) (p : Nat)
    (answers : List MEMORY_BASIC_INFORMATION) (hqs : queriesFrom w os h p answers)
    (mbi : MEMORY_BASIC_INFORMATION) (hmem : mbi ∈ answers) :
    ∃ a, os.VirtualQueryEx h.m_proc a = some mbi := by
  induction answers generalizing p with
  | nil => simp at hmem
  | cons a rest ih =>
    rw [queriesFrom_cons] at hqs
    rcases List.mem_cons.mp hmem with rfl | hrest
    · exact ⟨p, hqs.1⟩
    · exact ih _ hqs.2 hrest

/-- Every region of the result was built from a successful query whose answer is not free. -/
theorem GetMemoryRegions_mem (w : Nat) (os : OS) (h : WindowsProcessHandle) (fuel : Nat)
    (out : List ProcessMemoryRegion) (hret : GetMemoryRegions w os h fuel = some out)
    (r : ProcessMemoryRegion) (hr : r ∈ out) :
    ∃ a mbi, os.VirtualQueryEx h.m_proc a = some mbi ∧ mbi.State ≠ MEM_FREE ∧
      r = buildRegion w (discoverModules w os h) mbi := by
  obtain ⟨answers, -, hqs, -, hout⟩ := (scanLoop_iff w os h _ fuel 0 [] out).mp hret
  subst hout
  simp only [List.nil_append, List.mem_map, List.mem_filter] at hr
  obtain ⟨mbi, ⟨hmem, hnf⟩, rfl⟩ := hr
  obtain ⟨a, ha⟩ := queriesFrom_mem w os h 0 answers hqs mbi hmem
  refine ⟨a, mbi, ha, ?_, rfl⟩
  simpa [notFree] using hnf

/-! ## Lemmas on the flags -/

theorem hasFlag_Read_iff (protect type : Nat) :
    hasFlag (typeFlags (protectFlags protect) type) pmrf_Read = true ↔
      recognizedProtect protect := by
  unfold typeFlags protectFlags recognizedProtect
  simp only [PAGE_READONLY, PAGE_READWRITE, PAGE_WRITECOPY, PAGE_EXECUTE_READ,
    PAGE_EXECUTE_READWRITE, PAGE_EXECUTE_WRITECOPY, MEM_IMAGE, MEM_MAPPED, MEM_PRIVATE]
  split_ifs <;>
    first
    | (refine iff_of_true (by decide) ?_; omega)
    | (refine iff_of_false (by decide) ?_; omega)

theorem hasFlag_Write_iff (protect type : Nat) :
    hasFlag (typeFlags (protectFlags protect) type) pmrf_Write = true ↔
      (protect = PAGE_READWRITE ∨ protect = PAGE_WRITECOPY ∨
        protect = PAGE_EXECUTE_READWRITE ∨ protect = PAGE_EXECUTE_WRITECOPY) := by
  unfold typeFlags protectFlags
  simp only [PAGE_READONLY, PAGE_READWRITE, PAGE_WRITECOPY, PAGE_EXECUTE_READ,
    PAGE_EXECUTE_READWRITE, PAGE_EXECUTE_WRITECOPY, MEM_IMAGE, MEM_MAPPED, MEM_PRIVATE]
  split_ifs <;>
    first
    | (refine iff_of_true (by decide) ?_; omega)
    | (refine iff_of_false (by decide) ?_; omega)

theorem hasFlag_Execute_iff (protect type : Nat) :
    hasFlag (typeFlags (protectFlags protect) type) pmrf_Execute = true ↔
      (protect = PAGE_EXECUTE_READ ∨ protect = PAGE_EXECUTE_READWRITE ∨
        protect = PAGE_EXECUTE_WRITECOPY) := by
  unfold typeFlags protectFlags
  simp only [PAGE_READONLY, PAGE_READWRITE, PAGE_WRITECOPY, PAGE_EXECUTE_READ,
    PAGE_EXECUTE_READWRITE, PAGE_EXECUTE_WRITECOPY, MEM_IMAGE, MEM_MAPPED, MEM_PRIVATE]
  split_ifs <;>
    first
    | (refine iff_of_true (by decide) ?_; omega)
    | (refine iff_of_false (by decide) ?_; omega)

theorem hasFlag_Image_iff (protect type : Nat) :
    hasFlag (typeFlags (protectFlags protect) type) pmrf_Image = true ↔ type = MEM_IMAGE := by
  unfold typeFlags protectFlags
  simp only [PAGE_READONLY, PAGE_READWRITE, PAGE_WRITECOPY, PAGE_EXECUTE_READ,
    PAGE_EXECUTE_READWRITE, PAGE_EXECUTE_WRITECOPY, MEM_IMAGE, MEM_MAPPED, MEM_PRIVATE]
  split_ifs <;>
    first
    | (refine iff_of_true (by decide) ?_; omega)
    | (refine iff_of_false (by decide) ?_; omega)

theorem hasFlag_Mapped_iff (protect type : Nat) :
    hasFlag (typeFlags (protectFlags protect) type) pmrf_Mapped = true ↔ type = MEM_MAPPED := by
  unfold typeFlags protectFlags
  simp only [PAGE_READONLY, PAGE_READWRITE, PAGE_WRITECOPY, PAGE_EXECUTE_READ,
    PAGE_EXECUTE_READWRITE, PAGE_EXECUTE_WRITECOPY, MEM_IMAGE, MEM_MAPPED, MEM_PRIVATE]
  split_ifs <;>
    first
    | (refine iff_of_true (by decide) ?_; omega)
    | (refine iff_of_false (by decide) ?_; omega)

theorem hasFlag_Private_iff (protect type : Nat) :
    hasFlag (typeFlags (protectFlags protect) type) pmrf_Private = true ↔
      type = MEM_PRIVATE := by
  unfold typeFlags protectFlags
  simp only [PAGE_READONLY, PAGE_READWRITE, PAGE_WRITECOPY, PAGE_EXECUTE_READ,
    PAGE_EXECUTE_READWRITE, PAGE_EXECUTE_WRITECOPY, MEM_IMAGE, MEM_MAPPED, MEM_PRIVATE]
  split_ifs <;>
    first
    | (refine iff_of_true (by decide) ?_; omega)
    | (refine iff_of_false (by decide) ?_; omega)

theorem buildRegion_flags (w : Nat) (modules : List ModuleInfo) (mbi : MEMORY_BASIC_INFORMATION) :
    (buildRegion w modules mbi).m_flags = typeFlags (protectFlags mbi.Protect) mbi.Type_ := rfl

theorem buildRegion_start (w : Nat) (modules : List ModuleInfo) (mbi : MEMORY_BASIC_INFORMATION) :
    (buildRegion w modules mbi).m_start = mbi.BaseAddress := by
  unfold buildRegion
  dsimp only
  split <;> split <;> rfl

theorem buildRegion_end (w : Nat) (modules : List ModuleInfo) (mbi : MEMORY_BASIC_INFORMATION) :
    (buildRegion w modules mbi).m_end = wrap w (mbi.BaseAddress + mbi.RegionSize) := by
  unfold buildRegion
  dsimp only
  split <;> split <;> rfl

/-! ## Lemmas on ownership -/

theorem inModule_iff (w : Nat) (mod : ModuleInfo) (a : Nat) :
    inModule w mod a = true ↔ inRange w mod a := by
  simp [inModule, inRange]

/-- The section loop yields the last section with the base, or leaves `pageSection` as it
was when there is none. -/
theorem findSection_cases (base : Nat) (sections : List SectionInfo) (acc : Option SectionInfo) :
    ((∀ s ∈ sections, s.m_base ≠ base) ∧ findSection base sections acc = acc) ∨
      ∃ before s after, sections = before ++ s :: after ∧ s.m_base = base ∧
        (∀ t ∈ after, t.m_base ≠ base) ∧ findSection base sections acc = some s := by
  induction sections generalizing acc with
  | nil => left; simp [findSection]
  | cons x rest ih =>
    by_cases hx : base = x.m_base
    · rw [findSection, if_pos hx]
      rcases ih (some x) with ⟨hnone, hres⟩ | ⟨before, s, after, hsplit, hs, hafter, hres⟩
      · right
        exact ⟨[], x, rest, rfl, hx.symm, hnone, hres⟩
      · right
        exact ⟨x :: before, s, after, by simp [hsplit], hs, hafter, hres⟩
    · rw [findSection, if_neg hx]
      rcases ih acc with ⟨hnone, hres⟩ | ⟨before, s, after, hsplit, hs, hafter, hres⟩
      · left
        refine ⟨?_, hres⟩
        intro s hs
        rcases List.mem_cons.mp hs with rfl | hs
        · exact fun h => hx h.symm
        · exact hnone s hs
      · right
        exact ⟨x :: before, s, after, by simp [hsplit], hs, hafter, hres⟩

/-- The module loop stops at the first module whose range holds the base. -/
theorem findOwner_cases (w base : Nat) (modules : List ModuleInfo) :
    ((∀ m ∈ modules, ¬ inRange w m base) ∧ findOwner w base modules = (none, none)) ∨
      ∃ before m after, modules = before ++ m :: after ∧ (∀ t ∈ before, ¬ inRange w t base) ∧
        inRange w m base ∧
        findOwner w base modules = (some m, findSection base m.m_sections none) := by
  induction modules with
  | nil => left; simp [findOwner]
  | cons x rest ih =>
    by_cases hx : inModule w x base = true
    · right
      refine ⟨[], x, rest, rfl, by simp, (inModule_iff w x base).mp hx, ?_⟩
      rw [findOwner, if_pos hx]
    · have hx2 : ¬ inRange w x base := fun hr => hx ((inModule_iff w x base).mpr hr)
      rw [findOwner, if_neg hx]
      rcases ih with ⟨hnone, hres⟩ | ⟨before, m, after, hsplit, hbefore, hm, hres⟩
      · left
        refine ⟨?_, hres⟩
        intro m hm
        rcases List.mem_cons.mp hm with rfl | hm
        · exact hx2
        · exact hnone m hm
      · right
        refine ⟨x :: before, m, after, by simp [hsplit], ?_, hm, hres⟩
        intro t ht
        rcases List.mem_cons.mp ht with rfl | ht
        · exact hx2
        · exact hbefore t ht

/-- The owner found when the first module whose range holds the base is known. -/
theorem findOwner_first (w base : Nat) (before after : List ModuleInfo) (m : ModuleInfo)
    (hbefore : ∀ t ∈ before, ¬ inRange w t base) (hm : inRange w m base) :
    findOwner w base (before ++ m :: after) = (some m, findSection base m.m_sections none) := by
  induction before with
  | nil =>
    rw [List.nil_append, findOwner, if_pos ((inModule_iff w m base).mpr hm)]
  | cons x rest ih =>
    have hx : ¬ inModule w x base = true :=
      fun hx => hbefore x (List.mem_cons_self _ _) ((inModule_iff w x base).mp hx)
    rw [List.cons_append, findOwner, if_neg hx]
    exact ih (fun t ht => hbefore t (List.mem_cons_of_mem _ ht))

theorem buildRegion_unowned (w : Nat) (modules : List ModuleInfo) (mbi : MEMORY_BASIC_INFORMATION)
    (hown : findOwner w mbi.BaseAddress modules = (none, none)) :
    (buildRegion w modules mbi).m_path = [] ∧ (buildRegion w modules mbi).m_entryPoint = 0 ∧
      (buildRegion w modules mbi).m_section = [] := by
  unfold buildRegion
  simp [hown]

theorem buildRegion_owned (w : Nat) (modules : List ModuleInfo) (mbi : MEMORY_BASIC_INFORMATION)
    (m : ModuleInfo) (sec : Option SectionInfo)
    (hown : findOwner w mbi.BaseAddress modules = (some m, sec)) :
    (buildRegion w modules mbi).m_path = m.m_mod.szExePath ∧
      (buildRegion w modules mbi).m_entryPoint = m.m_entryPoint ∧
      (buildRegion w modules mbi).m_section = Option.elim sec [] (fun s => s.m_name) := by
  unfold buildRegion
  cases sec <;> simp [hown]

/-! ## Lemmas on module discovery -/

theorem parseModule_base (w : Nat) (os : OS) (h : WindowsProcessHandle) (mod : MODULEENTRY32) :
    (parseModule w os h mod).m_base = mod.modBaseAddr ∧ (parseModule w os h mod).m_mod = mod := by
  unfold parseModule
  dsimp only
  split_ifs <;> exact ⟨rfl, rfl⟩

/-- A module whose headers fail one of the two magic tests is recorded without entry point
and without sections. -/
theorem parseModule_invalid (w : Nat) (os : OS) (h : WindowsProcessHandle) (mod : MODULEENTRY32)
    (hbad : e_magic (dosHeaderOf os h mod.modBaseAddr) ≠ 0x5A4D ∨
      Signature (ntHeadersOf w os h mod.modBaseAddr) ≠ 0x4550) :
    parseModule w os h mod = unparsedModule mod := by
  unfold ntHeadersOf dosHeaderOf at hbad
  unfold parseModule unparsedModule
  dsimp only
  by_cases h1 : e_magic (Read os h mod.modBaseAddr sizeofDosHeader) = 0x5A4D
  · rcases hbad with hb | hb
    · exact absurd h1 hb
    · simp only [h1, ne_eq, not_true_eq_false, if_false]
      rw [if_pos hb]
  · rw [if_pos h1]

/-- The entry point recorded for a module whose headers pass both magic tests. -/
theorem parseModule_valid_entry (w : Nat) (os : OS) (h : WindowsProcessHandle)
    (mod : MODULEENTRY32)
    (hmagic : e_magic (dosHeaderOf os h mod.modBaseAddr) = 0x5A4D)
    (hsig : Signature (ntHeadersOf w os h mod.modBaseAddr) = 0x4550) :
    (parseModule w os h mod).m_entryPoint =
      if AddressOfEntryPoint (ntHeadersOf w os h mod.modBaseAddr) ≠ 0 then
        wrap w (mod.modBaseAddr + AddressOfEntryPoint (ntHeadersOf w os h mod.modBaseAddr))
      else 0 := by
  unfold ntHeadersOf at hsig ⊢
  unfold dosHeaderOf at hmagic hsig ⊢
  unfold parseModule
  dsimp only
  simp only [hmagic, hsig, ne_eq, not_true_eq_false, if_false]

/-- The regions that `GetMemoryRegions` returns for the target `goodOS`. -/
theorem goodOS_regions : GetMemoryRegions 64 goodOS openHandle 6 = some goodRegions := by
  decide

/-- The regions that `GetMemoryRegions` returns for the target `badSignatureOS`. -/
theorem badSignatureOS_regions :
    GetMemoryRegions 64 badSignatureOS openHandle 6 = some badSignatureRegions := by
  decide

theorem backingCount_typeFlags (protect type : Nat) :
    backingCount (typeFlags (protectFlags protect) type) =
      if type = MEM_IMAGE ∨ type = MEM_MAPPED ∨ type = MEM_PRIVATE then 1 else 0 := by
  have hi := hasFlag_Image_iff protect type
  have hm := hasFlag_Mapped_iff protect type
  have hp := hasFlag_Private_iff protect type
  unfold backingCount
  simp only [hi, hm, hp]
  simp only [MEM_IMAGE, MEM_MAPPED, MEM_PRIVATE]
  split_ifs <;> omega

/-! ## Lemmas on the order of the scan -/

/-- When every answer reports the page-aligned base of the queried address and a size that
is a positive multiple of the page size and does not wrap, the answers from an aligned
cursor lie above the cursor, are not empty, and follow one another in address order. -/
theorem queriesFrom_sorted (w : Nat) (os : OS) (h : WindowsProcessHandle) (P : Nat)
    (hq : ∀ a mbi, os.VirtualQueryEx h.m_proc a = some mbi →
      mbi.BaseAddress = a - a % P ∧ 0 < mbi.RegionSize ∧ P ∣ mbi.RegionSize ∧
        mbi.BaseAddress + mbi.RegionSize < 2 ^ w)
    (p : Nat) (hp : P ∣ p) (answers : List MEMORY_BASIC_INFORMATION)
    (hqs : queriesFrom w os h p answers) :
    (∀ mbi ∈ answers, p ≤ mbi.BaseAddress ∧
        mbi.BaseAddress < wrap w (mbi.BaseAddress + mbi.RegionSize)) ∧
      answers.Pairwise (fun x y => wrap w (x.BaseAddress + x.RegionSize) ≤ y.BaseAddress) := by
  induction answers generalizing p with
  | nil => simp
  | cons mbi rest ih =>
    rw [queriesFrom_cons] at hqs
    obtain ⟨hquery, hrest⟩ := hqs
    obtain ⟨hbase, hpos, hdvd, hfit⟩ := hq p mbi hquery
    have hmod : p % P = 0 := Nat.mod_eq_zero_of_dvd hp
    have hbase2 : mbi.BaseAddress = p := by rw [hbase, hmod]; rfl
    have hwrap : wrap w (p + mbi.RegionSize) = p + mbi.RegionSize := by
      rw [wrap, Nat.mod_eq_of_lt (by rw [← hbase2]; exact hfit)]
    rw [hwrap] at hrest
    obtain ⟨hall, hpair⟩ := ih (p + mbi.RegionSize) (Dvd.dvd.add hp hdvd) hrest
    refine ⟨?_, ?_⟩
    · intro x hx
      rcases List.mem_cons.mp hx with rfl | hx
      · rw [hbase2, hwrap]
        exact ⟨le_refl _, by omega⟩
      · exact ⟨by have := (hall x hx).1; omega, (hall x hx).2⟩
    · rw [List.pairwise_cons]
      refine ⟨?_, hpair⟩
      intro y hy
      rw [hbase2, hwrap]
      exact (hall y hy).1

/-- A run of successful queries that ends in a failing query is determined by its start. -/
theorem queriesFrom_unique (w : Nat) (os : OS) (h : WindowsProcessHandle) (p : Nat)
    (xs ys : List MEMORY_BASIC_INFORMATION)
    (hxs : queriesFrom w os h p xs) (hxfail : os.VirtualQueryEx h.m_proc (cursorAfter w p xs) = none)
    (hys : queriesFrom w os h p ys) (hyfail : os.VirtualQueryEx h.m_proc (cursorAfter w p ys) = none) :
    xs = ys := by
  induction xs generalizing p ys with
  | nil =>
    cases ys with
    | nil => rfl
    | cons y rest =>
      rw [queriesFrom_cons] at hys
      simp only [cursorAfter, List.foldl_nil] at hxfail
      rw [hxfail] at hys
      exact absurd hys.1 (by simp)
  | cons x rest ih =>
    rw [queriesFrom_cons] at hxs
    cases ys with
    | nil =>
      simp only [cursorAfter, List.foldl_nil] at hyfail
      rw [hyfail] at hxs
      exact absurd hxs.1 (by simp)
    | cons y rest2 =>
      rw [queriesFrom_cons] at hys
      have hxy : x = y := by
        have := hxs.1.symm.trans hys.1
        simpa using this
      subst hxy
      rw [cursorAfter_cons] at hxfail hyfail
      rw [ih _ rest2 hxs.2 hxfail hys.2 hyfail]

/-- When every answer reports a positive size that does not wrap and the queries fail from
the bound `L` on, the queries from any cursor end, after at most as many answers as the
distance of the cursor to `L`, and the cursor increases with each answer. -/
theorem queriesFrom_terminates (w : Nat) (os : OS) (h : WindowsProcessHandle) (L : Nat)
    (hsize : ∀ a mbi, os.VirtualQueryEx h.m_proc a = some mbi →
      0 < mbi.RegionSize ∧ a + mbi.RegionSize < 2 ^ w)
    (hL : ∀ a, L ≤ a → os.VirtualQueryEx h.m_proc a = none) (n p : Nat) (hn : L ≤ p + n) :
    ∃ answers : List MEMORY_BASIC_INFORMATION, answers.length ≤ n ∧
      queriesFrom w os h p answers ∧
      os.VirtualQueryEx h.m_proc (cursorAfter w p answers) = none ∧
      (cursorsOf w p answers).Pairwise (fun c d => c < d) ∧
      ∀ c ∈ cursorsOf w p answers, p ≤ c := by
  induction n generalizing p with
  | zero =>
    refine ⟨[], le_refl _, trivial, ?_, by simp [cursorsOf], by simp [cursorsOf]⟩
    simpa [cursorAfter] using hL p (by omega)
  | succ n ih =>
    cases hquery : os.VirtualQueryEx h.m_proc p with
    | none =>
      refine ⟨[], by simp, trivial, ?_, by simp [cursorsOf], by simp [cursorsOf]⟩
      simpa [cursorAfter] using hquery
    | some mbi =>
      obtain ⟨hpos, hfit⟩ := hsize p mbi hquery
      have hwrap : wrap w (p + mbi.RegionSize) = p + mbi.RegionSize := by
        rw [wrap, Nat.mod_eq_of_lt hfit]
      obtain ⟨rest, hlen, hqs, hfail, hinc, hge⟩ := ih (p + mbi.RegionSize) (by omega)
      refine ⟨mbi :: rest, by simpa using hlen, ?_, ?_, ?_, ?_⟩
      · rw [queriesFrom_cons, hwrap]
        exact ⟨hquery, hqs⟩
      · rw [cursorAfter_cons, hwrap]
        exact hfail
      · rw [cursorsOf, hwrap, List.pairwise_cons]
        refine ⟨?_, hinc⟩
        intro c hc
        have := hge c hc
        omega
      · rw [cursorsOf, hwrap]
        intro c hc
        rcases List.mem_cons.mp hc with rfl | hc
        · exact le_refl _
        · have := hge c hc
          omega

/-- The name built from a section header is the name of the spec whenever the 8-byte name
field holds a null byte. -/
theorem cString_take (n : Nat) (bytes : List Nat) (hzero : 0 ∈ bytes.take n) :
    cString bytes = cString (bytes.take n) := by
  induction bytes generalizing n with
  | nil => simp at hzero
  | cons b rest ih =>
    cases n with
    | zero => simp at hzero
    | succ n =>
      rw [List.take_succ_cons] at hzero ⊢
      by_cases hb : b = 0
      · subst hb
        simp [cString, List.takeWhile]
      · rcases List.mem_cons.mp hzero with h0 | hmem
        · exact absurd h0.symm hb
        · have := ih n hmem
          unfold cString at this ⊢
          simp [List.takeWhile, hb, this]

/-- The name that the section loop builds from a header is the name of the spec whenever
the 8-byte name field of the header holds a null byte. -/
theorem cString_eq_sectionNameSpec (headerSection : List Nat)
    (hzero : 0 ∈ nameField headerSection) :
    cString headerSection = sectionNameSpec headerSection :=
  cString_take 8 headerSection hzero

/-! ## Claims -/

/-- C1 (counterexample): for a target whose only region is committed and reported with the
backing-type code 0, `GetMemoryRegions` returns one region, and none of the flags Image,
Mapped, Private is set in it. -/
theorem C1_counterexample :
    GetMemoryRegions 64 untypedOS openHandle 2 =
        some [{ m_start := 0, m_end := 0x1000, m_flags := pmrf_Read ||| pmrf_Write }] ∧
      backingCount (pmrf_Read ||| pmrf_Write) = 0 := by
  decide

/-- C1 (amended): every region that `GetMemoryRegions` returns has at most one of the flags
Image, Mapped, Private; it was built from a successful query whose answer is not free, and
has Image, Mapped or Private exactly when the backing-type code of that answer is
`MEM_IMAGE`, `MEM_MAPPED` or `MEM_PRIVATE` respectively, whatever the protection code; so
exactly one of the three is set when the code is one of these three, and none otherwise. -/
theorem C1_backing_flags (w : Nat) (os : OS) (h : WindowsProcessHandle) (fuel : Nat)
    (out : List ProcessMemoryRegion) (hret : GetMemoryRegions w os h fuel = some out)
    (r : ProcessMemoryRegion) (hr : r ∈ out) :
    backingCount r.m_flags ≤ 1 ∧
      ∃ a mbi, os.VirtualQueryEx h.m_proc a = some mbi ∧ mbi.State ≠ MEM_FREE ∧
        r = buildRegion w (discoverModules w os h) mbi ∧
        (hasFlag r.m_flags pmrf_Image = true ↔ mbi.Type_ = MEM_IMAGE) ∧
        (hasFlag r.m_flags pmrf_Mapped = true ↔ mbi.Type_ = MEM_MAPPED) ∧
        (hasFlag r.m_flags pmrf_Private = true ↔ mbi.Type_ = MEM_PRIVATE) ∧
        (backingCount r.m_flags = 1 ↔
          (mbi.Type_ = MEM_IMAGE ∨ mbi.Type_ = MEM_MAPPED ∨ mbi.Type_ = MEM_PRIVATE)) ∧
        (backingCount r.m_flags = 0 ↔
          ¬ (mbi.Type_ = MEM_IMAGE ∨ mbi.Type_ = MEM_MAPPED ∨ mbi.Type_ = MEM_PRIVATE)) := by
  obtain ⟨a, mbi, hq, hnf, rfl⟩ := GetMemoryRegions_mem w os h fuel out hret r hr
  have hc := backingCount_typeFlags mbi.Protect mbi.Type_
  rw [buildRegion_flags]
  refine ⟨?_, a, mbi, hq, hnf, rfl, hasFlag_Image_iff _ _, hasFlag_Mapped_iff _ _,
    hasFlag_Private_iff _ _, ?_, ?_⟩
  · rw [hc]; split_ifs <;> omega
  · rw [hc]; split_ifs with ht <;> simp [ht]
  · rw [hc]; split_ifs with ht <;> simp [ht]

/-- C1 (witness): the amended statement at the first region of the target `goodOS`. -/
theorem C1_backing_flags_witness :
    GetMemoryRegions 64 goodOS openHandle 6 = some goodRegions ∧
      backingCount (9 : Nat) ≤ 1 := by
  have hret := goodOS_regions
  exact ⟨hret, (C1_backing_flags 64 goodOS openHandle 6 goodRegions hret
    { m_start := 0x400000, m_end := 0x401000, m_flags := 9, m_entryPoint := 0x401234,
      m_path := demoPath } (by simp [goodRegions])).1⟩

/-- C2 (the code at the failing input): the second section header of the module of the
target `goodOS` has the name field `.textbss`, eight bytes none of which is null, followed
by the virtual size `0x41`. The name of the spec is these eight bytes; the name that
`GetMemoryRegions` records for the section, and attaches to the region starting at the base
of the section, has nine bytes: it runs on into the first byte of the virtual size. -/
theorem C2_name_overrun :
    nameField (Read goodOS openHandle (demoBase + 0x1B0) sizeofSectionHeader) =
        [0x2E, 0x74, 0x65, 0x78, 0x74, 0x62, 0x73, 0x73] ∧
      sectionNameSpec (Read goodOS openHandle (demoBase + 0x1B0) sizeofSectionHeader) =
        [0x2E, 0x74, 0x65, 0x78, 0x74, 0x62, 0x73, 0x73] ∧
      (discoverModules 64 goodOS openHandle).map (fun m => m.m_sections) =
        [[⟨0x401000, [0x2E, 0x74, 0x65, 0x78, 0x74]⟩,
          ⟨0x402000, [0x2E, 0x74, 0x65, 0x78, 0x74, 0x62, 0x73, 0x73, 0x41]⟩]] ∧
      (GetMemoryRegions 64 goodOS openHandle 6).map
          (fun out => out.map (fun r => (r.m_start, r.m_section))) =
        some [(0x400000, []), (0x401000, [0x2E, 0x74, 0x65, 0x78, 0x74]),
          (0x402000, [0x2E, 0x74, 0x65, 0x78, 0x74, 0x62, 0x73, 0x73, 0x41]), (0x403000, [])] := by
  decide

/-- C3: when the snapshot holds a module whose DOS header does not carry the magic `0x5A4D`,
or whose NT headers at `base + e_lfanew` do not carry the signature `0x4550`, the list of
modules still holds, at its place, a record of that module with its base and descriptor,
entry point 0 and no sections, and the modules after it are parsed in turn; the page scan
returns whenever its queries end; and every returned region whose start lies in the range of
that module and of no module before it has the path of the module, entry point 0 and no
section name. -/
theorem C3_unparsed_module (w : Nat) (os : OS) (h : WindowsProcessHandle)
    (pre post : List MODULEENTRY32) (mod : MODULEENTRY32)
    (hsnap : os.Module32 (os.GetProcessId h.m_proc) = pre ++ mod :: post)
    (hbad : e_magic (dosHeaderOf os h mod.modBaseAddr) ≠ 0x5A4D ∨
      Signature (ntHeadersOf w os h mod.modBaseAddr) ≠ 0x4550) :
    discoverModules w os h =
        pre.map (parseModule w os h) ++
          unparsedModule mod :: post.map (parseModule w os h) ∧
      (∀ fuel answers, answers.length < fuel → queriesFrom w os h 0 answers →
        os.VirtualQueryEx h.m_proc (cursorAfter w 0 answers) = none →
        ∃ out, GetMemoryRegions w os h fuel = some out) ∧
      (∀ fuel out, GetMemoryRegions w os h fuel = some out → ∀ r ∈ out,
        (∀ t ∈ pre.map (parseModule w os h), ¬ inRange w t r.m_start) →
        inRange w (unparsedModule mod) r.m_start →
        r.m_path = mod.szExePath ∧ r.m_entryPoint = 0 ∧ r.m_section = []) := by
  have hdisc : discoverModules w os h =
      pre.map (parseModule w os h) ++ unparsedModule mod :: post.map (parseModule w os h) := by
    unfold discoverModules
    rw [hsnap, List.map_append, List.map_cons, parseModule_invalid w os h mod hbad]
  refine ⟨hdisc, ?_, ?_⟩
  · intro fuel answers hlen hqs hfail
    exact ⟨_, (scanLoop_iff w os h _ fuel 0 [] _).mpr ⟨answers, hlen, hqs, hfail, rfl⟩⟩
  · intro fuel out hret r hr hbefore hin
    obtain ⟨a, mbi, -, -, rfl⟩ := GetMemoryRegions_mem w os h fuel out hret r hr
    rw [buildRegion_start] at hbefore hin
    have hown := findOwner_first w mbi.BaseAddress _ (post.map (parseModule w os h)) _
      hbefore hin
    rw [← hdisc] at hown
    simpa [findSection, unparsedModule] using buildRegion_owned w _ mbi _ _ hown

/-- C3 (witness): the statement at the target `badSignatureOS`, whose only module has NT
headers with a wrong signature, and at the region of the section `.text`. -/
theorem C3_unparsed_module_witness :
    Signature (ntHeadersOf 64 badSignatureOS openHandle demoBase) ≠ 0x4550 ∧
      discoverModules 64 badSignatureOS openHandle =
        [unparsedModule ⟨demoBase, 0x3000, demoPath⟩] ∧
      GetMemoryRegions 64 badSignatureOS openHandle 6 = some badSignatureRegions ∧
      ∃ r ∈ badSignatureRegions, r.m_start = 0x401000 ∧ r.m_path = demoPath ∧
        r.m_entryPoint = 0 ∧ r.m_section = [] := by
  have hbad : Signature (ntHeadersOf 64 badSignatureOS openHandle demoBase) ≠ 0x4550 := by
    decide
  have hmain := C3_unparsed_module 64 badSignatureOS openHandle [] []
    ⟨demoBase, 0x3000, demoPath⟩ (by decide) (Or.inr hbad)
  refine ⟨hbad, hmain.1, badSignatureOS_regions,
    { m_start := 0x401000, m_end := 0x402000, m_flags := 13, m_path := demoPath },
    by simp [badSignatureRegions], rfl, ?_⟩
  exact hmain.2.2 6 badSignatureRegions badSignatureOS_regions
    { m_start := 0x401000, m_end := 0x402000, m_flags := 13, m_path := demoPath }
    (by simp [badSignatureRegions]) (by simp) (by unfold inRange; decide)

/-- C4: for a target whose snapshot holds one module, at base `B`, whose headers carry both
magics and declare the entry-point offset `E`, whose range holds `B`, and whose page scan
makes the successful queries `answers` and then a failing one, one of the answers reporting
a region that is not free and starts at `B`: `GetMemoryRegions` returns a list holding a region that
starts at `B` (and ends after `B` when the reported size is positive and does not wrap)
whose entry point is `B + E` in pointer arithmetic when `E` is not zero, and 0 when `E` is
zero. -/
theorem C4_entry_point (w : Nat) (os : OS) (h : WindowsProcessHandle) (mod : MODULEENTRY32)
    (answers : List MEMORY_BASIC_INFORMATION) (mbi : MEMORY_BASIC_INFORMATION) (fuel : Nat)
    (hsnap : os.Module32 (os.GetProcessId h.m_proc) = [mod])
    (hmagic : e_magic (dosHeaderOf os h mod.modBaseAddr) = 0x5A4D)
    (hsig : Signature (ntHeadersOf w os h mod.modBaseAddr) = 0x4550)
    (hrange : mod.modBaseAddr < wrap w (mod.modBaseAddr + mod.modBaseSize))
    (hqs : queriesFrom w os h 0 answers)
    (hfail : os.VirtualQueryEx h.m_proc (cursorAfter w 0 answers) = none)
    (hmem : mbi ∈ answers) (hbase : mbi.BaseAddress = mod.modBaseAddr)
    (hnf : mbi.State ≠ MEM_FREE) (hfuel : answers.length < fuel) :
    ∃ out, GetMemoryRegions w os h fuel = some out ∧
      ∃ r ∈ out, r.m_start = mod.modBaseAddr ∧
        (0 < mbi.RegionSize → mod.modBaseAddr + mbi.RegionSize < 2 ^ w →
          mod.modBaseAddr < r.m_end) ∧
        (AddressOfEntryPoint (ntHeadersOf w os h mod.modBaseAddr) ≠ 0 →
          r.m_entryPoint =
            wrap w (mod.modBaseAddr + AddressOfEntryPoint (ntHeadersOf w os h mod.modBaseAddr))) ∧
        (AddressOfEntryPoint (ntHeadersOf w os h mod.modBaseAddr) ≠ 0 →
          mod.modBaseAddr + AddressOfEntryPoint (ntHeadersOf w os h mod.modBaseAddr) < 2 ^ w →
          r.m_entryPoint =
            mod.modBaseAddr + AddressOfEntryPoint (ntHeadersOf w os h mod.modBaseAddr)) ∧
        (AddressOfEntryPoint (ntHeadersOf w os h mod.modBaseAddr) = 0 → r.m_entryPoint = 0) := by
  have hdisc : discoverModules w os h = [] ++ parseModule w os h mod :: [] := by
    unfold discoverModules
    rw [hsnap]
    rfl
  have hin : inRange w (parseModule w os h mod) mbi.BaseAddress := by
    unfold inRange
    rw [(parseModule_base w os h mod).1, (parseModule_base w os h mod).2, hbase]
    exact ⟨le_refl _, hrange⟩
  have hown := findOwner_first w mbi.BaseAddress [] [] (parseModule w os h mod)
    (by simp) hin
  rw [← hdisc] at hown
  obtain ⟨-, hentry, -⟩ := buildRegion_owned w _ mbi _ _ hown
  have hep := parseModule_valid_entry w os h mod hmagic hsig
  rw [hep] at hentry
  refine ⟨_, (scanLoop_iff w os h _ fuel 0 [] _).mpr ⟨answers, hfuel, hqs, hfail, rfl⟩,
    buildRegion w (discoverModules w os h) mbi, ?_, ?_, ?_, ?_, ?_, ?_⟩
  · simp only [List.nil_append, List.mem_map, List.mem_filter]
    exact ⟨mbi, ⟨hmem, by simpa [notFree] using hnf⟩, rfl⟩
  · rw [buildRegion_start, hbase]
  · intro hpos hfit
    rw [buildRegion_end, hbase, wrap, Nat.mod_eq_of_lt hfit]
    omega
  · intro hE
    rw [hentry, if_pos hE]
  · intro hE hfit
    rw [hentry, if_pos hE, wrap, Nat.mod_eq_of_lt hfit]
  · intro hE
    rw [hentry, if_neg (by simpa using hE)]

/-- C4 (witness): the statement at the target `goodOS`, whose module at `0x400000` declares
the entry-point offset `0x1234`. -/
theorem C4_entry_point_witness :
    ∃ out, GetMemoryRegions 64 goodOS openHandle 6 = some out ∧
      ∃ r ∈ out, r.m_start = 0x400000 ∧ 0x400000 < r.m_end ∧ r.m_entryPoint = 0x401234 := by
  obtain ⟨out, hret, r, hr, hstart, hend, -, hentry, -⟩ :=
    C4_entry_point 64 goodOS openHandle ⟨demoBase, 0x3000, demoPath⟩
      [⟨0, 0x400000, MEM_FREE, PAGE_NOACCESS, 0⟩,
       ⟨0x400000, 0x1000, MEM_COMMIT, PAGE_READONLY, MEM_IMAGE⟩,
       ⟨0x401000, 0x1000, MEM_COMMIT, PAGE_EXECUTE_READ, MEM_IMAGE⟩,
       ⟨0x402000, 0x1000, MEM_COMMIT, PAGE_READWRITE, MEM_IMAGE⟩,
       ⟨0x403000, 0x2000, MEM_RESERVE, 0, MEM_PRIVATE⟩]
      ⟨0x400000, 0x1000, MEM_COMMIT, PAGE_READONLY, MEM_IMAGE⟩ 6
      (by decide) (by decide) (by decide) (by decide)
      (by simp only [queriesFrom]; decide) (by decide) (by simp) (by decide) (by decide)
      (by decide)
  exact ⟨out, hret, r, hr, hstart, hend (by decide) (by decide),
    hentry (by decide) (by decide)⟩

/-- C5: `GetMemoryRegions` returns `out` exactly when the page scan, started at address 0
and advancing the cursor by the reported region size after each successful query, makes
finitely many successful queries `answers` and the query at the cursor after them fails;
`out` then holds, in query order, one region for each answer whose state is not free, with
start the reported base and end the reported base plus the reported size (in pointer
arithmetic), and no region for a free answer. -/
theorem C5_page_scan (w : Nat) (os : OS) (h : WindowsProcessHandle) (fuel : Nat)
    (out : List ProcessMemoryRegion) :
    GetMemoryRegions w os h fuel = some out ↔
      ∃ answers : List MEMORY_BASIC_INFORMATION,
        answers.length < fuel ∧
        queriesFrom w os h 0 answers ∧
        os.VirtualQueryEx h.m_proc (cursorAfter w 0 answers) = none ∧
        out = (answers.filter (fun mbi => mbi.State != MEM_FREE)).map
          (buildRegion w (discoverModules w os h)) ∧
        out.map (fun r => (r.m_start, r.m_end)) =
          (answers.filter (fun mbi => mbi.State != MEM_FREE)).map
            (fun mbi => (mbi.BaseAddress, wrap w (mbi.BaseAddress + mbi.RegionSize))) := by
  unfold GetMemoryRegions
  rw [scanLoop_iff]
  constructor
  · rintro ⟨answers, hlen, hqs, hfail, hout⟩
    refine ⟨answers, hlen, hqs, hfail, by simpa using hout, ?_⟩
    subst hout
    simp only [List.nil_append, List.map_map]
    apply List.map_congr_left
    intro mbi _
    simp [buildRegion_start, buildRegion_end]
  · rintro ⟨answers, hlen, hqs, hfail, hout, -⟩
    exact ⟨answers, hlen, hqs, hfail, by simpa using hout⟩

/-- C6: when every successful query at an address `a` reports as base the address `a`
rounded down to the page size `P` and a size that is a positive multiple of `P`, with base
plus size below `2 ^ w`, the regions that `GetMemoryRegions` returns are in strictly
increasing address order: each has its start below its end, and the end of each is at most
the start of every region after it. -/
theorem C6_address_order (w : Nat) (os : OS) (h : WindowsProcessHandle) (P fuel : Nat)
    (out : List ProcessMemoryRegion)
    (hq : ∀ a mbi, os.VirtualQueryEx h.m_proc a = some mbi →
      mbi.BaseAddress = a - a % P ∧ 0 < mbi.RegionSize ∧ P ∣ mbi.RegionSize ∧
        mbi.BaseAddress + mbi.RegionSize < 2 ^ w)
    (hret : GetMemoryRegions w os h fuel = some out) :
    (∀ r ∈ out, r.m_start < r.m_end) ∧ out.Pairwise (fun r s => r.m_end ≤ s.m_start) := by
  obtain ⟨answers, -, hqs, -, hout⟩ := (scanLoop_iff w os h _ fuel 0 [] out).mp hret
  obtain ⟨hall, hpair⟩ := queriesFrom_sorted w os h P hq 0 (dvd_zero P) answers hqs
  subst hout
  refine ⟨?_, ?_⟩
  · intro r hr
    simp only [List.nil_append, List.mem_map, List.mem_filter] at hr
    obtain ⟨mbi, ⟨hmem, -⟩, rfl⟩ := hr
    rw [buildRegion_start, buildRegion_end]
    exact (hall mbi hmem).2
  · rw [List.nil_append, List.pairwise_map]
    refine List.Pairwise.imp ?_ (List.Pairwise.filter _ hpair)
    intro x y hxy
    rw [buildRegion_start, buildRegion_end]
    exact hxy

/-- C6 (witness): the statement at the target `pagedOS`, with pages of `0x1000` bytes. -/
theorem C6_address_order_witness :
    GetMemoryRegions 64 pagedOS openHandle 4 =
        some [{ m_start := 0, m_end := 0x1000, m_flags := 35 },
          { m_start := 0x1000, m_end := 0x2000, m_flags := 35 },
          { m_start := 0x2000, m_end := 0x3000, m_flags := 35 }] ∧
      List.Pairwise (fun r s : ProcessMemoryRegion => r.m_end ≤ s.m_start)
        [{ m_start := 0, m_end := 0x1000, m_flags := 35 },
          { m_start := 0x1000, m_end := 0x2000, m_flags := 35 },
          { m_start := 0x2000, m_end := 0x3000, m_flags := 35 }] := by
  have hret : GetMemoryRegions 64 pagedOS openHandle 4 =
      some [{ m_start := 0, m_end := 0x1000, m_flags := 35 },
        { m_start := 0x1000, m_end := 0x2000, m_flags := 35 },
        { m_start := 0x2000, m_end := 0x3000, m_flags := 35 }] := by decide
  refine ⟨hret, (C6_address_order 64 pagedOS openHandle 0x1000 4 _ ?_ hret).2⟩
  intro a mbi hquery
  simp only [pagedOS] at hquery
  split_ifs at hquery with ha
  simp only [Option.some.injEq] at hquery
  subst hquery
  refine ⟨rfl, by norm_num, dvd_refl _, ?_⟩
  show a - a % 0x1000 + 0x1000 < 2 ^ 64
  norm_num
  omega

/-- C7: every region that `GetMemoryRegions` returns was built from a successful query whose
answer is not free, and its Read, Write and Execute flags are determined by the protection
code of that answer: read-only gives Read alone; read-write and write-copy give Read and
Write; execute-read gives Read and Execute; execute-read-write and execute-write-copy give
all three; every other code gives none. All three are absent exactly when the code is not
one of the six. -/
theorem C7_protection_flags (w : Nat) (os : OS) (h : WindowsProcessHandle) (fuel : Nat)
    (out : List ProcessMemoryRegion) (hret : GetMemoryRegions w os h fuel = some out)
    (r : ProcessMemoryRegion) (hr : r ∈ out) :
    ∃ a mbi, os.VirtualQueryEx h.m_proc a = some mbi ∧ mbi.State ≠ MEM_FREE ∧
      r = buildRegion w (discoverModules w os h) mbi ∧
      (mbi.Protect = PAGE_READONLY →
        hasFlag r.m_flags pmrf_Read = true ∧ hasFlag r.m_flags pmrf_Write = false ∧
          hasFlag r.m_flags pmrf_Execute = false) ∧
      (mbi.Protect = PAGE_READWRITE ∨ mbi.Protect = PAGE_WRITECOPY →
        hasFlag r.m_flags pmrf_Read = true ∧ hasFlag r.m_flags pmrf_Write = true ∧
          hasFlag r.m_flags pmrf_Execute = false) ∧
      (mbi.Protect = PAGE_EXECUTE_READ →
        hasFlag r.m_flags pmrf_Read = true ∧ hasFlag r.m_flags pmrf_Write = false ∧
          hasFlag r.m_flags pmrf_Execute = true) ∧
      (mbi.Protect = PAGE_EXECUTE_READWRITE ∨ mbi.Protect = PAGE_EXECUTE_WRITECOPY →
        hasFlag r.m_flags pmrf_Read = true ∧ hasFlag r.m_flags pmrf_Write = true ∧
          hasFlag r.m_flags pmrf_Execute = true) ∧
      (¬ recognizedProtect mbi.Protect →
        hasFlag r.m_flags pmrf_Read = false ∧ hasFlag r.m_flags pmrf_Write = false ∧
          hasFlag r.m_flags pmrf_Execute = false) ∧
      ((hasFlag r.m_flags pmrf_Read = false ∧ hasFlag r.m_flags pmrf_Write = false ∧
          hasFlag r.m_flags pmrf_Execute = false) ↔ ¬ recognizedProtect mbi.Protect) := by
  obtain ⟨a, mbi, hq, hnf, rfl⟩ := GetMemoryRegions_mem w os h fuel out hret r hr
  have hR := hasFlag_Read_iff mbi.Protect mbi.Type_
  have hW := hasFlag_Write_iff mbi.Protect mbi.Type_
  have hX := hasFlag_Execute_iff mbi.Protect mbi.Type_
  rw [buildRegion_flags]
  refine ⟨a, mbi, hq, hnf, rfl, ?_⟩
  simp only [← Bool.not_eq_true, hR, hW, hX, recognizedProtect]
  simp only [PAGE_READONLY, PAGE_READWRITE, PAGE_WRITECOPY, PAGE_EXECUTE_READ,
    PAGE_EXECUTE_READWRITE, PAGE_EXECUTE_WRITECOPY]
  refine ⟨?_, ?_, ?_, ?_, ?_, ?_⟩ <;> omega

/-- C7 (witness): the statement at the executable region of the target `goodOS`. -/
theorem C7_protection_flags_witness :
    GetMemoryRegions 64 goodOS openHandle 6 = some goodRegions ∧
      ∃ a mbi, goodOS.VirtualQueryEx openHandle.m_proc a = some mbi ∧
        mbi.Protect = PAGE_EXECUTE_READ ∧ hasFlag (13 : Nat) pmrf_Execute = true := by
  have hret := goodOS_regions
  obtain ⟨a, mbi, hq, -, hb, -, -, hx, -⟩ :=
    C7_protection_flags 64 goodOS openHandle 6 goodRegions hret
      { m_start := 0x401000, m_end := 0x402000, m_flags := 13, m_entryPoint := 0x401234,
        m_path := demoPath, m_section := [0x2E, 0x74, 0x65, 0x78, 0x74] }
      (by simp [goodRegions])
  refine ⟨hret, a, mbi, hq, ?_, by decide⟩
  have hf := congrArg ProcessMemoryRegion.m_flags hb
  rw [buildRegion_flags] at hf
  have hX := hasFlag_Execute_iff mbi.Protect mbi.Type_
  have hW := hasFlag_Write_iff mbi.Protect mbi.Type_
  rw [← hf] at hX hW
  have h1 : hasFlag (13 : Nat) pmrf_Execute = true := by decide
  have h2 : ¬ hasFlag (13 : Nat) pmrf_Write = true := by decide
  have h3 := hX.mp h1
  rw [hW] at h2
  simp only [PAGE_READONLY, PAGE_READWRITE, PAGE_WRITECOPY, PAGE_EXECUTE_READ,
    PAGE_EXECUTE_READWRITE, PAGE_EXECUTE_WRITECOPY] at *
  omega

/-- C8 (counterexample): the module of the target `blankNameOS` has a section with base
`0x402000` whose name is empty. The region that `GetMemoryRegions` returns at `0x402000` is
owned by that module (it has its path and entry point) and starts exactly at the base of
that section, yet it carries no section name. -/
theorem C8_counterexample :
    (discoverModules 64 blankNameOS openHandle).map (fun m => (m.m_base, m.m_sections)) =
        [(0x400000, [⟨0x401000, [0x2E, 0x74, 0x65, 0x78, 0x74]⟩, ⟨0x402000, []⟩])] ∧
      (GetMemoryRegions 64 blankNameOS openHandle 6).map
          (fun out => out.map (fun r => (r.m_start, r.m_path, r.m_entryPoint, r.m_section))) =
        some [(0x400000, demoPath, 0x401234, []),
          (0x401000, demoPath, 0x401234, [0x2E, 0x74, 0x65, 0x78, 0x74]),
          (0x402000, demoPath, 0x401234, []),
          (0x403000, [], 0, [])] := by
  decide

/-- C8 (amended): every region that `GetMemoryRegions` returns is owned by the first module
in discovery order whose range `[base, base + size)` (the end in pointer arithmetic) holds
the start of the region. When no module's range holds it, the region has no path, entry
point 0 and no section name. Otherwise it has the path and the entry point of that first
module; its section name is the name, empty or not, of the last section of that module
whose base equals the start of the region, when there is one, and is empty when that module
has none. So a region that carries a section name starts at the base of a section of that
module with that name; only the sections of that module decide. -/
theorem C8_ownership (w : Nat) (os : OS) (h : WindowsProcessHandle) (fuel : Nat)
    (out : List ProcessMemoryRegion) (hret : GetMemoryRegions w os h fuel = some out)
    (r : ProcessMemoryRegion) (hr : r ∈ out) :
    ((∀ m ∈ discoverModules w os h, ¬ inRange w m r.m_start) ∧
        r.m_path = [] ∧ r.m_entryPoint = 0 ∧ r.m_section = []) ∨
      ∃ before m after, discoverModules w os h = before ++ m :: after ∧
        (∀ t ∈ before, ¬ inRange w t r.m_start) ∧ inRange w m r.m_start ∧
        r.m_path = m.m_mod.szExePath ∧ r.m_entryPoint = m.m_entryPoint ∧
        (((∀ s ∈ m.m_sections, s.m_base ≠ r.m_start) ∧ r.m_section = []) ∨
          ∃ sbefore s safter, m.m_sections = sbefore ++ s :: safter ∧ s.m_base = r.m_start ∧
            (∀ t ∈ safter, t.m_base ≠ r.m_start) ∧ r.m_section = s.m_name) ∧
        (r.m_section ≠ [] →
          ∃ s ∈ m.m_sections, s.m_base = r.m_start ∧ s.m_name = r.m_section) := by
  obtain ⟨a, mbi, -, -, rfl⟩ := GetMemoryRegions_mem w os h fuel out hret r hr
  rw [buildRegion_start]
  rcases findOwner_cases w mbi.BaseAddress (discoverModules w os h) with
    ⟨hnone, hres⟩ | ⟨before, m, after, hsplit, hbefore, hm, hres⟩
  · left
    exact ⟨hnone, buildRegion_unowned w _ mbi hres⟩
  · right
    obtain ⟨hpath, hentry, hsec⟩ := buildRegion_owned w _ mbi m _ hres
    have hdisj : ((∀ s ∈ m.m_sections, s.m_base ≠ mbi.BaseAddress) ∧
          (buildRegion w (discoverModules w os h) mbi).m_section = []) ∨
        ∃ sbefore s safter, m.m_sections = sbefore ++ s :: safter ∧
          s.m_base = mbi.BaseAddress ∧ (∀ t ∈ safter, t.m_base ≠ mbi.BaseAddress) ∧
          (buildRegion w (discoverModules w os h) mbi).m_section = s.m_name := by
      rcases findSection_cases mbi.BaseAddress m.m_sections none with
        ⟨hno, hfs⟩ | ⟨sbefore, s, safter, hssplit, hs, hafter, hfs⟩
      · left
        rw [hfs] at hsec
        exact ⟨hno, hsec⟩
      · right
        rw [hfs] at hsec
        exact ⟨sbefore, s, safter, hssplit, hs, hafter, hsec⟩
    refine ⟨before, m, after, hsplit, hbefore, hm, hpath, hentry, hdisj, ?_⟩
    intro hne
    rcases hdisj with ⟨-, hempty⟩ | ⟨sbefore, s, safter, hssplit, hs, -, hname⟩
    · exact absurd hempty hne
    · exact ⟨s, by rw [hssplit]; simp, hs, hname.symm⟩

/-- C8 (witness): the amended statement at the third region of the target `goodOS`, which starts at
the base of the second section of its module. -/
theorem C8_ownership_witness :
    GetMemoryRegions 64 goodOS openHandle 6 = some goodRegions ∧
      ∃ m ∈ discoverModules 64 goodOS openHandle, inRange 64 m 0x402000 ∧
        m.m_mod.szExePath = demoPath := by
  have hret := goodOS_regions
  refine ⟨hret, ?_⟩
  rcases C8_ownership 64 goodOS openHandle 6 goodRegions hret
    { m_start := 0x402000, m_end := 0x403000, m_flags := 11, m_entryPoint := 0x401234,
      m_path := demoPath,
      m_section := [0x2E, 0x74, 0x65, 0x78, 0x74, 0x62, 0x73, 0x73, 0x41] }
    (by simp [goodRegions]) with
    ⟨-, hpath, -⟩ | ⟨before, m, after, hsplit, -, hm, hpath, -⟩
  · exact absurd hpath (by decide)
  · exact ⟨m, by rw [hsplit]; simp, hm, hpath.symm⟩

/-- C9 (counterexample): on a handle that failed to open, `ReadMemory` aborts in a build
with assertions, and `GetSymbolName` and `GetSymbolAddress` return true and overwrite their
output argument when the symbol engine answers for the null handle. -/
theorem C9_counterexample :
    IsOpen inertHandle = false ∧
      ReadMemory false eagerOS inertHandle 0x1000 1 = Outcome.abort ∧
      GetSymbolName eagerOS inertHandle 0x1000 [] = (true, [0x66]) ∧
      GetSymbolAddress eagerOS inertHandle [0x66] 0 = (true, 0x1000) := by
  decide

/-- C9 (amended): on a handle that failed to open, whatever the operating system would
answer, in a build without assertions `ReadMemory` returns 0 and writes nothing, and
`IsReadableMemory` and `IsExecutableMemory` return false, for every address and size; in a
build with assertions each of the three aborts. -/
theorem C9_inert_accessors (os : OS) (h : WindowsProcessHandle) (p size : Nat)
    (hclosed : IsOpen h = false) :
    ReadMemory true os h p size = Outcome.ret (0, []) ∧
      IsReadableMemory true os h p = Outcome.ret false ∧
      IsExecutableMemory true os h p = Outcome.ret false ∧
      ReadMemory false os h p size = Outcome.abort ∧
      IsReadableMemory false os h p = Outcome.abort ∧
      IsExecutableMemory false os h p = Outcome.abort := by
  have hproc : h.m_proc = 0 := by simpa [IsOpen] using hclosed
  simp [ReadMemory, IsReadableMemory, IsExecutableMemory, hproc]

/-- C9 (witness): the amended statement at the handle `inertHandle` and an operating system
that would answer every query. -/
theorem C9_inert_accessors_witness :
    IsOpen inertHandle = false ∧
      ReadMemory true eagerOS inertHandle 0x1000 16 = Outcome.ret (0, []) ∧
      IsExecutableMemory true eagerOS inertHandle 0x1000 = Outcome.ret false :=
  ⟨by decide, (C9_inert_accessors eagerOS inertHandle 0x1000 16 (by decide)).1,
    (C9_inert_accessors eagerOS inertHandle 0x1000 16 (by decide)).2.2.1⟩

/-- C10: when every successful query reports a size greater than 0 with cursor plus size
below `2 ^ w`, and the query fails at every address from `L` on, the page scan ends: there
are at most `L` successful queries, the query after them fails, the cursor strictly
increases from each query to the next, `GetMemoryRegions` runs out of fuel with exactly as
much fuel as there are successful queries and returns with any more, and it returns no more
regions than there are successful queries. A reported size of 0 leaves the cursor where it
is. -/
theorem C10_scan_terminates (w : Nat) (os : OS) (h : WindowsProcessHandle) (L : Nat)
    (hsize : ∀ a mbi, os.VirtualQueryEx h.m_proc a = some mbi →
      0 < mbi.RegionSize ∧ a + mbi.RegionSize < 2 ^ w)
    (hL : ∀ a, L ≤ a → os.VirtualQueryEx h.m_proc a = none) :
    (∃ (answers : List MEMORY_BASIC_INFORMATION) (out : List ProcessMemoryRegion),
        answers.length ≤ L ∧ queriesFrom w os h 0 answers ∧
        os.VirtualQueryEx h.m_proc (cursorAfter w 0 answers) = none ∧
        (cursorsOf w 0 answers).Pairwise (fun c d => c < d) ∧
        GetMemoryRegions w os h answers.length = none ∧
        (∀ fuel, answers.length < fuel → GetMemoryRegions w os h fuel = some out) ∧
        out.length ≤ answers.length) ∧
      (∀ a (mbi : MEMORY_BASIC_INFORMATION), a < 2 ^ w → mbi.RegionSize = 0 →
        wrap w (a + mbi.RegionSize) = a) := by
  refine ⟨?_, ?_⟩
  · obtain ⟨answers, hlen, hqs, hfail, hinc, -⟩ :=
      queriesFrom_terminates w os h L hsize hL L 0 (by omega)
    refine ⟨answers, (answers.filter notFree).map (buildRegion w (discoverModules w os h)),
      hlen, hqs, hfail, hinc, ?_, ?_, ?_⟩
    · cases hres : GetMemoryRegions w os h answers.length with
      | none => rfl
      | some out2 =>
        obtain ⟨ys, hylen, hys, hyfail, -⟩ := (scanLoop_iff w os h _ _ 0 [] out2).mp hres
        have := queriesFrom_unique w os h 0 ys answers hys hyfail hqs hfail
        subst this
        omega
    · intro fuel hfuel
      exact (scanLoop_iff w os h _ fuel 0 [] _).mpr ⟨answers, hfuel, hqs, hfail, rfl⟩
    · simp only [List.length_map]
      exact List.length_filter_le _ _
  · intro a mbi ha hzero
    rw [hzero, Nat.add_zero, wrap, Nat.mod_eq_of_lt ha]

/-- C10 (witness): the statement at the target `goodOS`, whose queries fail from `0x405000`
on. -/
theorem C10_scan_terminates_witness :
    ∃ (answers : List MEMORY_BASIC_INFORMATION) (out : List ProcessMemoryRegion),
      answers.length ≤ 0x405000 ∧
      (∀ fuel, answers.length < fuel → GetMemoryRegions 64 goodOS openHandle fuel = some out) ∧
      out.length ≤ answers.length := by
  have hsize : ∀ a mbi, goodOS.VirtualQueryEx openHandle.m_proc a = some mbi →
      0 < mbi.RegionSize ∧ a + mbi.RegionSize < 2 ^ 64 := by
    intro a mbi hquery
    simp only [goodOS, demoOS, openHandle] at hquery
    split_ifs at hquery <;> simp only [Option.some.injEq] at hquery <;> subst hquery <;>
      norm_num <;> omega
  have hL : ∀ a, 0x405000 ≤ a → goodOS.VirtualQueryEx openHandle.m_proc a = none := by
    intro a ha
    simp only [goodOS, demoOS, openHandle]
    split_ifs <;> first | rfl | omega
  obtain ⟨⟨answers, out, hlen, -, -, -, -, hfuel, hout⟩, -⟩ :=
    C10_scan_terminates 64 goodOS openHandle 0x405000 hsize hL
  exact ⟨answers, out, hlen, hfuel, hout⟩

end Catsight
